import Mathlib

/-!
Verification of the swissgeol-boreholes-dataextraction quality-assessment core:
a shallow embedding in Lean 4 of the evaluation engine
(`src/stratigraphy/util/predictions.py`,
`src/stratigraphy/evaluation/evaluation_dataclasses.py`), the duplicate layer
detector (`src/stratigraphy/util/duplicate_detection.py`) and the spatial line
index (`src/stratigraphy/util/linesquadtree.py`), with theorems checking the
specification's statements about them.

Numbers that Python holds as `float`/`int` are modelled as `ℚ`/`ℤ`/`ℕ`;
fallible code paths (Python exceptions) are modelled with `Except`.
External collaborators (PDF rendering, `Levenshtein.ratio`, `parse_text`,
`cv2.matchTemplate`, the groundwater comparison methods) are abstracted as
function parameters, as the spec designates them external capabilities.
-/

namespace Boreholes

/-- Python `int(x)` on a float/Rat: truncation toward zero. -/
def pyTrunc (q : ℚ) : ℤ := if 0 ≤ q then ⌊q⌋ else ⌈q⌉

/-- Python `round(x)` (banker's rounding: round half to even). -/
def pyRound (q : ℚ) : ℤ :=
  let f := ⌊q⌋
  let r := q - f
  if r < 1/2 then f
  else if 1/2 < r then f + 1
  else if Even f then f else f + 1

/-- Python `math.isclose(a, b, abs_tol=tol)`: the default relative tolerance
`rel_tol = 1e-9` stays in effect, so the test is
`|a-b| ≤ max(1e-9 * max(|a|,|b|), tol)`. -/
def pyIsClose (a b tol : ℚ) : Bool :=
  |a - b| ≤ max ((1/1000000000) * max |a| |b|) tol

/-! ## Metrics (`evaluation_dataclasses.py`, class `Metrics`) -/

/-- `Metrics`: true positive / false positive / false negative counts. -/
structure Metrics where
  tp : ℕ
  fp : ℕ
  fn : ℕ
deriving DecidableEq, Repr

namespace Metrics

/-- `Metrics.precision`: `tp / (tp + fp) if tp + fp > 0 else 0`. -/
def precision (m : Metrics) : ℚ :=
  if m.tp + m.fp > 0 then (m.tp : ℚ) / ((m.tp : ℚ) + (m.fp : ℚ)) else 0

/-- `Metrics.recall'`: `tp / (tp + fn) if tp + fn > 0 else 0`. -/
def recall' (m : Metrics) : ℚ :=
  if m.tp + m.fn > 0 then (m.tp : ℚ) / ((m.tp : ℚ) + (m.fn : ℚ)) else 0

/-- `Metrics.f1`: `2 * precision * recall / (precision + recall)` when the
denominator is positive, else 0. -/
def f1 (m : Metrics) : ℚ :=
  if m.precision + m.recall' > 0 then
    2 * m.precision * m.recall' / (m.precision + m.recall')
  else 0

/-- `Metrics.from_metric_list`: element-wise sum of the tp/fp/fn counts. -/
def from_metric_list (l : List Metrics) : Metrics :=
  { tp := (l.map tp).sum, fp := (l.map fp).sum, fn := (l.map fn).sum }

end Metrics

/-! ## Metadata metrics tables (`evaluation_dataclasses.py`) -/

/-- A cell of a pandas DataFrame as used here: a string or a number. -/
inductive DFCell where
  | str (s : String)
  | num (q : ℚ)
deriving DecidableEq, Repr

/-- The observable content of a pandas DataFrame: named columns and rows. -/
structure DataFrame where
  columns : List String
  rows : List (List DFCell)
deriving DecidableEq, Repr

/-- `BoreholeMetadataMetrics`: elevation and coordinates metrics of one file. -/
structure BoreholeMetadataMetrics where
  elevation_metrics : Metrics
  coordinates_metrics : Metrics
deriving DecidableEq, Repr

/-- `FileBoreholeMetadataMetrics`: per-file metadata metrics plus filename. -/
structure FileBoreholeMetadataMetrics where
  elevation_metrics : Metrics
  coordinates_metrics : Metrics
  filename : String
deriving DecidableEq, Repr

/-- `FileBoreholeMetadataMetrics.get_document_level_metrics`: the one-row
DataFrame `{"document_name": [filename], "elevation": [elevation f1],
"coordinate": [coordinate f1]}`. -/
def FileBoreholeMetadataMetrics.get_document_level_metrics
    (m : FileBoreholeMetadataMetrics) : DataFrame :=
  { columns := ["document_name", "elevation", "coordinate"]
    rows := [[DFCell.str m.filename, DFCell.num m.elevation_metrics.f1,
              DFCell.num m.coordinates_metrics.f1]] }

/-- `OverallBoreholeMetadataMetrics`: an append-ordered list of per-file
metadata metrics. -/
structure OverallBoreholeMetadataMetrics where
  borehole_metadata_metrics : List FileBoreholeMetadataMetrics
deriving DecidableEq, Repr

/-- `pd.concat(frames, ignore_index=True)` over same-columned frames:
columns kept, rows concatenated in order; `pd.concat` of an empty collection
raises `ValueError`, modelled by the `error` outcome. -/
def pdConcat (frames : List DataFrame) : Except Unit DataFrame :=
  match frames with
  | [] => .error ()
  | f :: _ => .ok { columns := f.columns
                    rows := (frames.map DataFrame.rows).flatten }

/-- `OverallBoreholeMetadataMetrics.get_document_level_metrics`: concatenate
every file's one-row frame, preserving insertion order. -/
def OverallBoreholeMetadataMetrics.get_document_level_metrics
    (o : OverallBoreholeMetadataMetrics) : Except Unit DataFrame :=
  pdConcat (o.borehole_metadata_metrics.map
    FileBoreholeMetadataMetrics.get_document_level_metrics)

/-! ## Metadata evaluation (`predictions.py`, `FilePredictions.evaluate_metadata`) -/

/-- One coordinate axis value (`CoordinateEntry.coordinate_value`). -/
structure CoordinateEntry where
  coordinate_value : ℚ
deriving DecidableEq, Repr

/-- `Coordinate`: east/north pair of the predicted metadata. -/
structure Coordinate where
  east : CoordinateEntry
  north : CoordinateEntry
deriving DecidableEq, Repr

/-- Ground-truth coordinates: the `{"E": ..., "N": ...}` dict. -/
structure GTCoords where
  E : ℚ
  N : ℚ
deriving DecidableEq, Repr

/-- `GroundwaterInformation`: depth/elevation/date, each independently
optional (the date kept abstract as a string). -/
structure GroundwaterInformation where
  depth : Option ℚ
  elevation : Option ℚ
  date : Option String
deriving DecidableEq, Repr

/-- The four comparison methods of the ground-truth `GroundwaterInformation`
record (`is_extracted_information_correct` etc.); external capabilities per
the spec, abstracted as functions whose first argument is the ground-truth
record. -/
structure GroundwaterCompare where
  info : GroundwaterInformation → GroundwaterInformation → Bool
  depth : GroundwaterInformation → Option ℚ → Bool
  elevation : GroundwaterInformation → Option ℚ → Bool
  date : GroundwaterInformation → Option String → Bool

/-- `BoreholeMetaData`: predicted metadata of one file. -/
structure BoreholeMetaData where
  coordinates : Option Coordinate
  groundwater_information : Option GroundwaterInformation := none
deriving Repr

/-- The per-file metadata ground truth (`ground_truth["metadata"]`):
optional coordinates dict and optional list of groundwater entries. -/
structure MetadataGroundTruth where
  coordinates : Option GTCoords
  groundwater : Option (List GroundwaterInformation)
deriving Repr

/-- The `metadata_is_correct` dict written by `evaluate_metadata`; `none`
stands for Python `None` (and, in the error outcome only, for a key the
crash left unwritten). -/
structure MetadataIsCorrect where
  coordinates : Option Bool := none
  groundwater_information : Option Bool := none
  groundwater_information_depth : Option Bool := none
  groundwater_information_elevation : Option Bool := none
  groundwater_information_date : Option Bool := none
deriving DecidableEq, Repr

/-- The coordinates section of `evaluate_metadata` (lines 198-225): `none`
when either side lacks coordinates; otherwise reconcile reference frames
(±2e6 east / ±1e6 north on the ground truth) and compare the
truncated-to-integer axes with `math.isclose(..., abs_tol=2)`. -/
def evalCoordinatesCorrect (meta : BoreholeMetaData)
    (gt : Option MetadataGroundTruth) : Option Bool :=
  match meta.coordinates, gt.bind MetadataGroundTruth.coordinates with
  | some c, some gc =>
    let e := c.east.coordinate_value
    let gte : ℚ × ℚ :=
      if e > 2000000 ∧ gc.E < 2000000 then
        ((pyTrunc gc.E : ℚ) + 2000000, (pyTrunc gc.N : ℚ) + 1000000)
      else if e < 2000000 ∧ gc.E > 2000000 then
        ((pyTrunc gc.E : ℚ) - 2000000, (pyTrunc gc.N : ℚ) - 1000000)
      else ((pyTrunc gc.E : ℚ), (pyTrunc gc.N : ℚ))
    some (pyIsClose (pyTrunc e : ℚ) gte.1 2 &&
          pyIsClose (pyTrunc c.north.coordinate_value : ℚ) gte.2 2)
  | _, _ => none

/-- `FilePredictions.evaluate_metadata` (lines 187-260): the coordinates
section followed by the groundwater section. The returned pair is the
`metadata_is_correct` dict plus the list of warnings logged; the `error`
outcome models the `IndexError` that `metadata_ground_truth["groundwater"][0]`
raises on an empty entry list, carrying the dict state written up to that
point. -/
def evaluateMetadata (cmp : GroundwaterCompare) (meta : BoreholeMetaData)
    (gt : Option MetadataGroundTruth) :
    Except (MetadataIsCorrect × List String) (MetadataIsCorrect × List String) :=
  let coords := evalCoordinatesCorrect meta gt
  match meta.groundwater_information, gt.bind MetadataGroundTruth.groundwater with
  | some egw, some entries =>
    let warnings :=
      if entries.length > 1 then
        ["Multiple groundwater information entries found in the ground truth."]
      else []
    match entries with
    | [] => .error ({ coordinates := coords }, warnings)
    | g :: _ =>
      .ok ({ coordinates := coords
             groundwater_information := some (cmp.info g egw)
             groundwater_information_depth := some (cmp.depth g egw.depth)
             groundwater_information_elevation := some (cmp.elevation g egw.elevation)
             groundwater_information_date := some (cmp.date g egw.date) }, warnings)
  | _, _ =>
    .ok ({ coordinates := coords
           groundwater_information := none
           groundwater_information_depth := none
           groundwater_information_elevation := none
           groundwater_information_date := none }, [])

/-! ## Layer matching (`predictions.py`, `_find_matching_layer` /
`FilePredictions.evaluate_layers`) -/

/-- `DepthColumnEntry`: a parsed depth value (its source rectangle and page
number are external page geometry never consulted by the evaluation). -/
structure DepthColumnEntry where
  value : ℚ
deriving DecidableEq, Repr

/-- `BoundaryInterval`: optional start/end depth entries. The Python `end`
attribute is named `ending` here (`end` is reserved in Lean). -/
structure BoundaryInterval where
  start : Option DepthColumnEntry
  ending : Option DepthColumnEntry
deriving DecidableEq, Repr

/-- A ground-truth depth interval: the `{"start": ..., "end": ...}` dict,
either bound possibly null. -/
structure GTDepthInterval where
  start : Option ℚ
  ending : Option ℚ
deriving DecidableEq, Repr

/-- A ground-truth layer: material description text plus depth interval. -/
structure GroundTruthLayer where
  material_description : String
  depth_interval : GTDepthInterval
deriving DecidableEq, Repr

/-- The evaluation-relevant part of `LayerPrediction`: the text of its
material description (the `TextBlock`/`MaterialDescription` variants are
consulted only through `.text`) and the optional depth interval. -/
structure LayerPrediction where
  material_description_text : String
  depth_interval : Option BoundaryInterval
deriving DecidableEq, Repr

/-- Python `max(xs, key=f)`: the first element attaining the maximal key
(later elements replace the current best only on a strictly greater key). -/
def pyMaxBy (f : α → ℚ) : List α → Option α
  | [] => none
  | x :: xs => some (xs.foldl (fun acc y => if f y > f acc then y else acc) x)

/-- The exact-depth-match scan of `_find_matching_layer` (lines 287-305):
walk the similarity candidates in order; return the first whose ground-truth
interval exactly matches the predicted one, `none` when no candidate does.
The `error` outcome models the `AttributeError` raised by
`layer.depth_interval.end.value` when the predicted end entry is absent while
a candidate has ground-truth start 0 and the predicted start is absent. -/
def exactStepBoth (i : BoundaryInterval) (g : GroundTruthLayer) :
    Except Unit Bool :=
  match i.start, i.ending with
  | some s, some e =>
    .ok (decide (g.depth_interval.start = some s.value ∧
                 g.depth_interval.ending = some e.value))
  | _, _ => .ok false

/-- The per-candidate `elif` chain of `_find_matching_layer` (lines 294-305):
`ok true` when the candidate is an exact depth match, `ok false` to continue
with the next candidate, `error` for the `AttributeError` raised by
`layer.depth_interval.end.value` when the end entry is absent. The second
`elif` (both predicted bounds present and equal to the candidate's) is
`exactStepBoth` above. -/
def exactStep (i : BoundaryInterval) (g : GroundTruthLayer) :
    Except Unit Bool :=
  if g.depth_interval.start = some 0 ∧ i.start = none then
    match i.ending with
    | none => .error ()
    | some e =>
      if g.depth_interval.ending = some e.value then .ok true
      else exactStepBoth i g
  else exactStepBoth i g

def exactScan (di : Option BoundaryInterval) :
    List GroundTruthLayer → Except Unit (Option GroundTruthLayer)
  | [] => .ok none
  | g :: rest =>
    match di with
    | none => exactScan di rest
    | some i =>
      match exactStep i g with
      | .error () => .error ()
      | .ok true => .ok (some g)
      | .ok false => exactScan di rest

/-- `_find_matching_layer` (lines 262-309): filter the unmatched ground-truth
pool by similarity ratio > 0.9 against the parsed predicted text; empty →
no match; else first exact depth match (removed from the pool, interval
correct) or the highest-ratio candidate (removed, interval incorrect).
Returns (match, depth_interval_is_correct, updated pool). `parseText` and
`ratio` abstract the external `parse_text` and `Levenshtein.ratio`. -/
def findMatchingLayer (parseText : String → String) (ratio : String → String → ℚ)
    (layer : LayerPrediction) (unmatched : List GroundTruthLayer) :
    Except Unit (Option GroundTruthLayer × Option Bool × List GroundTruthLayer) :=
  let parsed := parseText layer.material_description_text
  let possible := unmatched.filter
    (fun g => ratio parsed g.material_description > 9/10)
  if possible.isEmpty then .ok (none, none, unmatched)
  else
    match exactScan layer.depth_interval possible with
    | .error () => .error ()
    | .ok (some g) => .ok (some g, some true, unmatched.erase g)
    | .ok none =>
      match pyMaxBy (fun g => ratio parsed g.material_description) possible with
      | some m => .ok (some m, some false, unmatched.erase m)
      | none => .ok (none, none, unmatched)

/-- `FilePredictions.evaluate_layers` (lines 171-185): match each predicted
layer in order against the shrinking ground-truth pool, recording
`(material_is_correct, depth_interval_is_correct)` per layer; returns the
flags in layer order and the final pool of unmatched ground-truth layers. -/
def evaluateLayers (parseText : String → String) (ratio : String → String → ℚ) :
    List LayerPrediction → List GroundTruthLayer →
    Except Unit (List (Bool × Option Bool) × List GroundTruthLayer)
  | [], pool => .ok ([], pool)
  | l :: ls, pool =>
    match findMatchingLayer parseText ratio l pool with
    | .error () => .error ()
    | .ok (m, d, pool') =>
      match evaluateLayers parseText ratio ls pool' with
      | .error () => .error ()
      | .ok (fs, fp) =>
        if m.isSome then .ok ((true, d) :: fs, fp)
        else .ok ((false, none) :: fs, fp)

/-- The spec's exact-depth-match condition: ground-truth start 0, predicted
start absent and ground-truth end equal to the predicted end's value; or
both predicted bounds present and numerically equal to the candidate's. -/
def IsExactMatch : Option BoundaryInterval → GroundTruthLayer → Prop
  | none, _ => False
  | some i, g =>
      (g.depth_interval.start = some 0 ∧ i.start = none ∧ i.ending ≠ none ∧
        g.depth_interval.ending = i.ending.map DepthColumnEntry.value)
    ∨ (i.start ≠ none ∧ i.ending ≠ none ∧
        g.depth_interval.start = i.start.map DepthColumnEntry.value ∧
        g.depth_interval.ending = i.ending.map DepthColumnEntry.value)

instance : ∀ (di : Option BoundaryInterval) (g : GroundTruthLayer),
    Decidable (IsExactMatch di g)
  | none, _ => isFalse id
  | some _, _ => inferInstanceAs (Decidable (_ ∨ _))

/-- Totality precondition for the matching procedure: every present depth
interval whose start is absent has its end present. -/
def SafeLayer (l : LayerPrediction) : Prop :=
  ∀ i, l.depth_interval = some i → i.start = none → i.ending ≠ none

instance (l : LayerPrediction) : Decidable (SafeLayer l) := by
  unfold SafeLayer
  cases l.depth_interval <;> simp <;> infer_instance

/-- The candidate set of one matching step: the still-unmatched ground-truth
entries whose similarity ratio against the layer's parsed text
exceeds 0.9. -/
def candidatesOf (parseText : String → String) (ratio : String → String → ℚ)
    (layer : LayerPrediction) (pool : List GroundTruthLayer) :
    List GroundTruthLayer :=
  pool.filter (fun g =>
    ratio (parseText layer.material_description_text) g.material_description >
      9/10)

/-- The spec's description of one matching step, as stated in the claim:
candidates are exactly the pool entries with ratio > 0.9; none → no match,
pool unchanged; some exact match → that candidate removed, both flags true;
otherwise the highest-ratio candidate removed, material correct, interval
incorrect. -/
def LayerMatchSpec (parseText : String → String) (ratio : String → String → ℚ)
    (layer : LayerPrediction) (pool : List GroundTruthLayer)
    (res : Option GroundTruthLayer × Option Bool × List GroundTruthLayer) : Prop :=
  if (candidatesOf parseText ratio layer pool).isEmpty then
    res = (none, none, pool)
  else if ∃ g ∈ candidatesOf parseText ratio layer pool,
      IsExactMatch layer.depth_interval g then
    ∃ g ∈ candidatesOf parseText ratio layer pool,
      IsExactMatch layer.depth_interval g ∧
      res = (some g, some true, pool.erase g)
  else
    ∃ m ∈ candidatesOf parseText ratio layer pool,
      (∀ g ∈ candidatesOf parseText ratio layer pool,
        ratio (parseText layer.material_description_text)
            g.material_description ≤
          ratio (parseText layer.material_description_text)
            m.material_description) ∧
      res = (some m, some false, pool.erase m)

/-- The spec's description of the whole `evaluate_layers` pass: per-layer
steps threaded through the shrinking pool, the recorded flags being
`(true, some true)` on an exact match, `(true, some false)` on a
material-only match and `(false, none)` when no candidate qualifies. -/
inductive EvalLayersSpec (parseText : String → String)
    (ratio : String → String → ℚ) :
    List LayerPrediction → List GroundTruthLayer →
    List (Bool × Option Bool) × List GroundTruthLayer → Prop where
  | nil (pool : List GroundTruthLayer) :
      EvalLayersSpec parseText ratio [] pool ([], pool)
  | cons (l : LayerPrediction) (ls : List LayerPrediction)
      (pool pool' fp : List GroundTruthLayer) (m : Option GroundTruthLayer)
      (d : Option Bool) (fs : List (Bool × Option Bool)) :
      LayerMatchSpec parseText ratio l pool (m, d, pool') →
      EvalLayersSpec parseText ratio ls pool' (fs, fp) →
      EvalLayersSpec parseText ratio (l :: ls) pool ((m.isSome, d) :: fs, fp)

/-! ## Duplicate layer detection (`duplicate_detection.py`,
`remove_duplicate_layers`) -/

/-- The scanning loop of `remove_duplicate_layers` (lines 39-68): walk the
sorted candidates keeping the index of the last candidate whose template
correlation score exceeded 0.62 (`duplicated_layer_index`, initially 0) and a
counter of consecutive non-duplicates (initially 0); a score > 0.62 moves the
boundary to the current index and resets the counter, otherwise the counter
increments; reaching counter 3 stops the scan. Returns the boundary index. -/
def dupScan (score : α → ℚ) : List α → ℕ → ℕ → ℕ → ℕ
  | [], _, boundary, _ => boundary
  | l :: rest, idx, boundary, counter =>
    if counter ≥ 3 then boundary
    else if score l > 62/100 then dupScan score rest (idx + 1) idx 0
    else dupScan score rest (idx + 1) boundary (counter + 1)

/-- `remove_duplicate_layers` (lines 10-69): sort the candidate layers of the
current page by the top coordinate of their material-description rectangle
(`rect[1]`, via `top`), scan them for template matches against the previous
page, and return the sorted suffix from the duplicate boundary onward.
`score` abstracts the external crop-and-`cv2.matchTemplate` correlation of a
candidate's patch against the previous page's bitmap (already 0 when the
correlation computation failed numerically). -/
def removeDuplicateLayers (top : α → ℚ) (score : α → ℚ) (layers : List α) :
    List α :=
  let sortedLayers := layers.mergeSort (fun a b => top a ≤ top b)
  sortedLayers.drop (dupScan score sortedLayers 0 0 0)

/-! ## Spatial line index (`linesquadtree.py`, `LinesQuadTree`)

`Point` and `Line` are the geometric records of `stratigraphy/util/dataclasses`
(spec §3: a point is an `{x, y}` page coordinate, a line an oriented segment
`{start, end}`). The `quads.QuadTree` of the external `quads` library is
modelled by its observable content: a finite association of integer points to
the keys of the lines registered there (`quads` answers exact `find` and
inclusive bounding-box `within_bb` queries over these points). -/

/-- A 2D point in page space. -/
structure Point where
  x : ℚ
  y : ℚ
deriving DecidableEq, Repr

/-- An oriented line segment; the Python `end` field is named `ending`. -/
structure Line where
  start : Point
  ending : Point
deriving DecidableEq, Repr

/-- Association-list lookup by key (Python dict access / `quads.find`). -/
def alookup [DecidableEq κ] (k : κ) : List (κ × β) → Option β
  | [] => none
  | e :: rest => if e.1 = k then some e.2 else alookup k rest

/-- The rounded coordinates a point is registered under
(`(round(point.x), round(point.y))`). -/
def roundPt (p : Point) : ℤ × ℤ := (pyRound p.x, pyRound p.y)

/-- `LinesQuadTree`: the region index content plus the key→line hashmap. -/
structure LinesQuadTree where
  qtree : List ((ℤ × ℤ) × List String)
  hashmap : List (String × Line)
deriving DecidableEq, Repr

/-- The empty index (no lines registered). -/
def LinesQuadTree.empty : LinesQuadTree := { qtree := [], hashmap := [] }

/-- `LinesQuadTree._qtree_insert`: register `key` at the rounded coordinates
of `p`, adding to the existing point's key set when one exists there. -/
def qtreeInsert (pts : List ((ℤ × ℤ) × List String)) (p : Point)
    (key : String) : List ((ℤ × ℤ) × List String) :=
  let c := roundPt p
  match alookup c pts with
  | some _ =>
    pts.map (fun e => if e.1 = c then
      (e.1, if key ∈ e.2 then e.2 else e.2 ++ [key]) else e)
  | none => pts ++ [(c, [key])]

/-- `LinesQuadTree._qtree_delete`: when a point exists at the rounded
coordinates of `p`, remove `key` from its key set. The `error` outcome is the
`KeyError` that Python's `set.remove` raises when `key` is not in the set. -/
def qtreeDelete (pts : List ((ℤ × ℤ) × List String)) (p : Point)
    (key : String) : Except Unit (List ((ℤ × ℤ) × List String)) :=
  let c := roundPt p
  match alookup c pts with
  | none => .ok pts
  | some data =>
    if key ∈ data then
      .ok (pts.map (fun e => if e.1 = c then (e.1, e.2.erase key) else e))
    else .error ()

/-- `LinesQuadTree.add`: store the line under a fresh key (Python generates a
uuid; the key is passed explicitly here) and register both endpoints. -/
def LinesQuadTree.add (t : LinesQuadTree) (line : Line) (key : String) :
    LinesQuadTree :=
  { hashmap := t.hashmap ++ [(key, line)]
    qtree := qtreeInsert (qtreeInsert t.qtree line.start key) line.ending key }

/-- `LinesQuadTree.remove`: no-op on an unknown key; otherwise unregister both
endpoints and drop the key from the hashmap. -/
def LinesQuadTree.remove (t : LinesQuadTree) (key : String) :
    Except Unit LinesQuadTree :=
  match alookup key t.hashmap with
  | none => .ok t
  | some line => do
    let q1 ← qtreeDelete t.qtree line.start key
    let q2 ← qtreeDelete q1 line.ending key
    .ok { qtree := q2, hashmap := t.hashmap.filter (fun e => e.1 ≠ key) }

/-- Membership of a registered (integer) point in the bounding box of the
queried line's two unrounded endpoints expanded by `tol` on all sides — the
`quads.BoundingBox` built on lines 54-58 of `linesquadtree.py`
(`within_bb` bounds are inclusive). -/
def InExpandedBB (line : Line) (tol : ℚ) (c : ℤ × ℤ) : Prop :=
  min line.start.x line.ending.x - tol ≤ (c.1 : ℚ) ∧
  (c.1 : ℚ) ≤ max line.start.x line.ending.x + tol ∧
  min line.start.y line.ending.y - tol ≤ (c.2 : ℚ) ∧
  (c.2 : ℚ) ≤ max line.start.y line.ending.y + tol

instance (line : Line) (tol : ℚ) (c : ℤ × ℤ) :
    Decidable (InExpandedBB line tol c) := by
  unfold InExpandedBB
  infer_instance

/-- `LinesQuadTree.neighbouring_lines`: empty for an unknown key; otherwise
the bounding box of the queried line's two (unrounded) endpoints expanded by
`tol` on all sides is queried for registered points, and every distinct key
found there other than the query key, still live in the hashmap, is returned
with its line (in first-occurrence order, as the Python result dict). -/
def LinesQuadTree.neighbouring_lines (t : LinesQuadTree) (key : String)
    (tol : ℚ) : List (String × Line) :=
  match alookup key t.hashmap with
  | none => []
  | some line =>
    let ks := ((t.qtree.filter
      (fun e => InExpandedBB line tol e.1)).flatMap Prod.snd).dedup
    ks.filterMap (fun k =>
      if k ≠ key then (alookup k t.hashmap).map (fun l2 => (k, l2)) else none)

/-- Well-formedness of an index state, as maintained by `add`/`remove`:
distinct hashmap keys, distinct registered points with duplicate-free key
sets, every live line registered at both its rounded endpoints, and every
registered live key registered only at rounded endpoints of its line. -/
def LQTWF (t : LinesQuadTree) : Prop :=
  (t.hashmap.map Prod.fst).Nodup ∧
  (t.qtree.map Prod.fst).Nodup ∧
  (∀ e ∈ t.qtree, e.2.Nodup) ∧
  (∀ kl ∈ t.hashmap, ∃ e ∈ t.qtree, e.1 = roundPt kl.2.start ∧ kl.1 ∈ e.2) ∧
  (∀ kl ∈ t.hashmap, ∃ e ∈ t.qtree, e.1 = roundPt kl.2.ending ∧ kl.1 ∈ e.2) ∧
  (∀ e ∈ t.qtree, ∀ k ∈ e.2, ∀ kl ∈ t.hashmap, kl.1 = k →
    e.1 = roundPt kl.2.start ∨ e.1 = roundPt kl.2.ending)

/-- The claim's membership condition: the other line has an (unrounded)
endpoint inside the bounding box of the queried line's endpoints expanded by
`tol` on all sides. -/
def HasEndpointInExpandedBB (line : Line) (tol : ℚ) (other : Line) : Prop :=
  let within : Point → Prop := fun p =>
    min line.start.x line.ending.x - tol ≤ p.x ∧
    p.x ≤ max line.start.x line.ending.x + tol ∧
    min line.start.y line.ending.y - tol ≤ p.y ∧
    p.y ≤ max line.start.y line.ending.y + tol
  within other.start ∨ within other.ending

/-- The rounded variant that the index actually realizes: the other line has
an endpoint whose rounded registration coordinates lie inside the expanded
bounding box of the queried line's unrounded endpoints. -/
def HasRoundedEndpointInExpandedBB (line : Line) (tol : ℚ) (other : Line) :
    Prop :=
  InExpandedBB line tol (roundPt other.start) ∨
  InExpandedBB line tol (roundPt other.ending)

/-- The `metadata_is_correct` dict state an `evaluate_metadata` run leaves on
the object, whether the run returned normally or raised. -/
def metadataDict :
    Except (MetadataIsCorrect × List String) (MetadataIsCorrect × List String) →
    MetadataIsCorrect
  | .ok (d, _) => d
  | .error (d, _) => d

/-- The spec's reference-frame reconciliation of the ground-truth east value:
shifted by +2,000,000 when predicted east > 2,000,000 and ground-truth east
< 2,000,000, by -2,000,000 in the reverse case, unshifted otherwise
(after truncation to integer). -/
def reconE (c : Coordinate) (gc : GTCoords) : ℚ :=
  if c.east.coordinate_value > 2000000 ∧ gc.E < 2000000 then
    (pyTrunc gc.E : ℚ) + 2000000
  else if c.east.coordinate_value < 2000000 ∧ gc.E > 2000000 then
    (pyTrunc gc.E : ℚ) - 2000000
  else (pyTrunc gc.E : ℚ)

/-- The spec's reconciliation of the ground-truth north value: ±1,000,000
under the same east-based conditions. -/
def reconN (c : Coordinate) (gc : GTCoords) : ℚ :=
  if c.east.coordinate_value > 2000000 ∧ gc.E < 2000000 then
    (pyTrunc gc.N : ℚ) + 1000000
  else if c.east.coordinate_value < 2000000 ∧ gc.E > 2000000 then
    (pyTrunc gc.N : ℚ) - 1000000
  else (pyTrunc gc.N : ℚ)

/-- A trivial instantiation of the external groundwater comparison
capability, used for concrete evaluations that do not touch groundwater. -/
def cmpTrivial : GroundwaterCompare :=
  ⟨fun _ _ => true, fun _ _ => true, fun _ _ => true, fun _ _ => true⟩

/-- A concrete two-file metrics collection used to witness C6. -/
def exOverall : OverallBoreholeMetadataMetrics :=
  ⟨[⟨⟨1, 0, 0⟩, ⟨1, 0, 0⟩, "a.pdf"⟩, ⟨⟨2, 0, 0⟩, ⟨1, 1, 0⟩, "b.pdf"⟩]⟩

/-- A concrete similarity ratio (1 on equal strings, 0 otherwise) used to
witness the layer-matching theorems. -/
def exRatio : String → String → ℚ := fun a b => if a = b then 1 else 0

/-- A concrete predicted layer with an absent start and end 2.0. -/
def exLayer : LayerPrediction := ⟨"clay", some ⟨none, some ⟨2⟩⟩⟩

/-- A concrete ground-truth layer with interval 0–2.0. -/
def exGTLayer : GroundTruthLayer := ⟨"clay", ⟨some 0, some 2⟩⟩

/-- Concrete lines for the C5 counterexample: the queried line spans
(0,0)–(10,0); the other line's first endpoint (10.4, 0) lies outside the
unexpanded box but rounds to (10,0), inside it. -/
def exL : Line := ⟨⟨0, 0⟩, ⟨10, 0⟩⟩

def exM : Line := ⟨⟨52/5, 0⟩, ⟨50, 50⟩⟩

/-- The index holding `exL` under "a" and `exM` under "b". -/
def exT : LinesQuadTree := (LinesQuadTree.empty.add exL "a").add exM "b"

/-- A small index with integer coordinates used to witness C5. -/
def exW : LinesQuadTree :=
  (LinesQuadTree.empty.add ⟨⟨0, 0⟩, ⟨10, 0⟩⟩ "a").add ⟨⟨3, 4⟩, ⟨20, 20⟩⟩ "b"

/-! ## Theorems -/

lemma Metrics.precision_nonneg (m : Metrics) : 0 ≤ m.precision := by
  unfold Metrics.precision
  split
  · positivity
  · exact le_refl 0

lemma Metrics.recall_nonneg (m : Metrics) : 0 ≤ m.recall' := by
  unfold Metrics.recall'
  split
  · positivity
  · exact le_refl 0

/-- C3: precision is `tp/(tp+fp)` (0 on zero denominator), recall is
`tp/(tp+fn)` (0 on zero denominator), F1 is `2·P·R/(P+R)` (0 on zero
denominator); `from_metric_list` is the element-wise sum of the tp/fp/fn
counts with the scores freshly derived from the summed counts (as witnessed
by an instance where the summed F1 differs from the average of the member
F1 scores); `Metrics(0,0,0)` scores all 0, `Metrics(3,1,1)` scores all 3/4,
and `from_metric_list [Metrics(1,0,0), Metrics(2,1,0)] = Metrics(3,1,0)`. -/
theorem claim_C3_metrics :
    (∀ m : Metrics, m.precision =
      if m.tp + m.fp = 0 then 0 else (m.tp : ℚ) / ((m.tp : ℚ) + (m.fp : ℚ))) ∧
    (∀ m : Metrics, m.recall' =
      if m.tp + m.fn = 0 then 0 else (m.tp : ℚ) / ((m.tp : ℚ) + (m.fn : ℚ))) ∧
    (∀ m : Metrics, m.f1 =
      if m.precision + m.recall' = 0 then 0
      else 2 * m.precision * m.recall' / (m.precision + m.recall')) ∧
    (∀ l : List Metrics, Metrics.from_metric_list l =
      ⟨(l.map Metrics.tp).sum, (l.map Metrics.fp).sum, (l.map Metrics.fn).sum⟩) ∧
    ((Metrics.mk 0 0 0).precision = 0 ∧ (Metrics.mk 0 0 0).recall' = 0 ∧
      (Metrics.mk 0 0 0).f1 = 0) ∧
    ((Metrics.mk 3 1 1).precision = 3/4 ∧ (Metrics.mk 3 1 1).recall' = 3/4 ∧
      (Metrics.mk 3 1 1).f1 = 3/4) ∧
    Metrics.from_metric_list [Metrics.mk 1 0 0, Metrics.mk 2 1 0] =
      Metrics.mk 3 1 0 ∧
    (Metrics.from_metric_list [Metrics.mk 1 0 0, Metrics.mk 1 1 1]).f1 ≠
      ((Metrics.mk 1 0 0).f1 + (Metrics.mk 1 1 1).f1) / 2 := by
  refine ⟨?_, ?_, ?_, ?_, ?_, ?_, ?_, ?_⟩
  · intro m
    by_cases h : m.tp + m.fp = 0
    · simp [Metrics.precision, h]
    · simp [Metrics.precision, h, Nat.pos_of_ne_zero h]
  · intro m
    by_cases h : m.tp + m.fn = 0
    · simp [Metrics.recall', h]
    · simp [Metrics.recall', h, Nat.pos_of_ne_zero h]
  · intro m
    by_cases h : m.precision + m.recall' = 0
    · simp [Metrics.f1, h]
    · have hpos : 0 < m.precision + m.recall' :=
        lt_of_le_of_ne (add_nonneg m.precision_nonneg m.recall_nonneg)
          (Ne.symm h)
      simp [Metrics.f1, h, hpos]
  · intro l
    rfl
  · refine ⟨by norm_num [Metrics.precision], by norm_num [Metrics.recall'],
      by norm_num [Metrics.f1, Metrics.precision, Metrics.recall']⟩
  · refine ⟨by norm_num [Metrics.precision], by norm_num [Metrics.recall'],
      by norm_num [Metrics.f1, Metrics.precision, Metrics.recall']⟩
  · rfl
  · norm_num [Metrics.from_metric_list, Metrics.f1, Metrics.precision,
      Metrics.recall']

/-- The per-file one-row frames concatenate to one row per file. -/
lemma rows_flatten (l : List FileBoreholeMetadataMetrics) :
    ((l.map FileBoreholeMetadataMetrics.get_document_level_metrics).map
      DataFrame.rows).flatten =
    l.map (fun m => [DFCell.str m.filename, DFCell.num m.elevation_metrics.f1,
      DFCell.num m.coordinates_metrics.f1]) := by
  induction l with
  | nil => rfl
  | cons x xs ih =>
    simp only [List.map_cons, List.flatten_cons, ih]
    rfl

/-- C6 counterexample: on a one-file instance the document-level table's
columns are `document_name, elevation, coordinate` — not the
`document_name, elevation_f1, coordinate_f1` the claim states. -/
theorem claim_C6_counterexample :
    OverallBoreholeMetadataMetrics.get_document_level_metrics
      ⟨[⟨⟨1, 0, 0⟩, ⟨1, 0, 0⟩, "a.pdf"⟩]⟩ =
      .ok ⟨["document_name", "elevation", "coordinate"],
           [[DFCell.str "a.pdf", DFCell.num 1, DFCell.num 1]]⟩ ∧
    (["document_name", "elevation", "coordinate"] : List String) ≠
      ["document_name", "elevation_f1", "coordinate_f1"] := by
  constructor
  · show pdConcat _ = _
    norm_num [pdConcat, FileBoreholeMetadataMetrics.get_document_level_metrics,
      Metrics.f1, Metrics.precision, Metrics.recall']
  · decide

/-- C6 (amended): for a non-empty collection of per-file metrics the
document-level table has exactly one row per file, in insertion order, with
columns `document_name, elevation, coordinate`, the latter two holding each
file's elevation and coordinate F1 scores. -/
theorem claim_C6_document_level_table (o : OverallBoreholeMetadataMetrics)
    (h : o.borehole_metadata_metrics ≠ []) :
    ∃ df, o.get_document_level_metrics = .ok df ∧
      df.columns = ["document_name", "elevation", "coordinate"] ∧
      df.rows = o.borehole_metadata_metrics.map (fun m =>
        [DFCell.str m.filename, DFCell.num m.elevation_metrics.f1,
         DFCell.num m.coordinates_metrics.f1]) ∧
      df.rows.length = o.borehole_metadata_metrics.length := by
  obtain ⟨ms⟩ := o
  match ms, h with
  | m :: rest, _ =>
    refine ⟨_, rfl, rfl, ?_, ?_⟩
    · exact rows_flatten (m :: rest)
    · show (((m :: rest).map _).map DataFrame.rows).flatten.length = _
      rw [rows_flatten]
      simp

/-- C6 witness: the amended table theorem at a concrete two-file instance. -/
theorem claim_C6_document_level_table_witness :
    ∃ df, exOverall.get_document_level_metrics = .ok df ∧
      df.columns = ["document_name", "elevation", "coordinate"] ∧
      df.rows = exOverall.borehole_metadata_metrics.map (fun m =>
        [DFCell.str m.filename, DFCell.num m.elevation_metrics.f1,
         DFCell.num m.coordinates_metrics.f1]) ∧
      df.rows.length = exOverall.borehole_metadata_metrics.length :=
  claim_C6_document_level_table exOverall (by decide)

/-- The coordinates entry of the dict `evaluate_metadata` leaves equals the
coordinates-section result, whether or not the groundwater section raises. -/
lemma metadataDict_coordinates (cmp : GroundwaterCompare)
    (meta : BoreholeMetaData) (gt : Option MetadataGroundTruth) :
    (metadataDict (evaluateMetadata cmp meta gt)).coordinates =
      evalCoordinatesCorrect meta gt := by
  unfold evaluateMetadata
  cases meta.groundwater_information with
  | none => rfl
  | some egw =>
    cases gt.bind MetadataGroundTruth.groundwater with
    | none => rfl
    | some entries => cases entries <;> rfl

/-- The coordinates section yields `None` when either side lacks
coordinates. -/
lemma evalCoordinatesCorrect_none (meta : BoreholeMetaData)
    (gt : Option MetadataGroundTruth)
    (h : meta.coordinates = none ∨
      gt.bind MetadataGroundTruth.coordinates = none) :
    evalCoordinatesCorrect meta gt = none := by
  unfold evalCoordinatesCorrect
  rcases h with h | h
  · rw [h]
  · rw [h]
    cases meta.coordinates <;> rfl

/-- C2 counterexample: with predicted coordinates (4,000,000,000 /
1,200,000) and ground truth (4,000,000,003 / 1,200,000) — no frame shift,
truncated east values differing by 3 > 2 — `evaluate_metadata` records the
coordinates as correct, because Python's `math.isclose(..., abs_tol=2)`
keeps its default relative tolerance `rel_tol=1e-9`, which exceeds 3 at
this magnitude. The claim's "any pair differing by more than 2 in either
axis after reconciliation is incorrect" is therefore false. -/
theorem claim_C2_counterexample :
    evaluateMetadata cmpTrivial ⟨some ⟨⟨4000000000⟩, ⟨1200000⟩⟩, none⟩
        (some ⟨some ⟨4000000003, 1200000⟩, none⟩) =
      .ok (⟨some true, none, none, none, none⟩, []) ∧
    ¬ |(pyTrunc (4000000000 : ℚ) : ℚ) - (pyTrunc (4000000003 : ℚ) : ℚ)| ≤ 2 := by
  constructor
  · norm_num [evaluateMetadata, evalCoordinatesCorrect, pyIsClose, pyTrunc]
  · norm_num [pyTrunc]

/-- C2 (amended): when both sides carry coordinates, `evaluate_metadata`
reconciles the reference frames exactly as claimed (±2,000,000 east /
±1,000,000 north on the truncated ground truth), and records correct iff
both truncated axes agree under Python `math.isclose` with `abs_tol=2`
(i.e. within `max(2, 1e-9·max(|a|,|b|))`, which is the claimed absolute
tolerance 2 for all coordinates of magnitude ≤ 2·10⁹); the claimed example
(2,600,000 / 1,200,000) vs (600,000 / 200,000) is reconciled and correct. -/
theorem claim_C2_coordinates :
    (∀ cmp meta gt,
      (metadataDict (evaluateMetadata cmp meta gt)).coordinates =
        evalCoordinatesCorrect meta gt) ∧
    (∀ (meta : BoreholeMetaData) (gt : Option MetadataGroundTruth) c g gc,
      meta.coordinates = some c → gt = some g → g.coordinates = some gc →
      evalCoordinatesCorrect meta gt = some
        (pyIsClose (pyTrunc c.east.coordinate_value : ℚ) (reconE c gc) 2 &&
         pyIsClose (pyTrunc c.north.coordinate_value : ℚ) (reconN c gc) 2)) ∧
    evalCoordinatesCorrect ⟨some ⟨⟨2600000⟩, ⟨1200000⟩⟩, none⟩
      (some ⟨some ⟨600000, 200000⟩, none⟩) = some true := by
  refine ⟨metadataDict_coordinates, ?_,
    by norm_num [evalCoordinatesCorrect, pyIsClose, pyTrunc]⟩
  intro meta gt c g gc h1 h2 h3
  subst h2
  simp only [evalCoordinatesCorrect, h1, Option.some_bind, h3]
  unfold reconE reconN
  split_ifs <;> rfl

/-- C2 witness: the amended coordinates characterization applied at the
claimed concrete pair (2,600,000 / 1,200,000) vs (600,000 / 200,000). -/
theorem claim_C2_coordinates_witness :
    evalCoordinatesCorrect ⟨some ⟨⟨2600000⟩, ⟨1200000⟩⟩, none⟩
        (some ⟨some ⟨600000, 200000⟩, none⟩) = some
      (pyIsClose (pyTrunc ((2600000 : ℚ)) : ℚ)
        (reconE ⟨⟨2600000⟩, ⟨1200000⟩⟩ ⟨600000, 200000⟩) 2 &&
       pyIsClose (pyTrunc ((1200000 : ℚ)) : ℚ)
        (reconN ⟨⟨2600000⟩, ⟨1200000⟩⟩ ⟨600000, 200000⟩) 2) :=
  claim_C2_coordinates.2.1 ⟨some ⟨⟨2600000⟩, ⟨1200000⟩⟩, none⟩
    (some ⟨some ⟨600000, 200000⟩, none⟩) ⟨⟨2600000⟩, ⟨1200000⟩⟩
    ⟨some ⟨600000, 200000⟩, none⟩ ⟨600000, 200000⟩ rfl rfl rfl

/-- C8: when either side lacks coordinates the coordinates correctness is
recorded as `None` (not false), and when either side lacks groundwater data
`evaluate_metadata` returns normally with all four groundwater correctness
signals recorded as `None`. -/
theorem claim_C8_undetermined (cmp : GroundwaterCompare)
    (meta : BoreholeMetaData) (gt : Option MetadataGroundTruth) :
    ((meta.coordinates = none ∨
        gt.bind MetadataGroundTruth.coordinates = none) →
      (metadataDict (evaluateMetadata cmp meta gt)).coordinates = none) ∧
    ((meta.groundwater_information = none ∨
        gt.bind MetadataGroundTruth.groundwater = none) →
      ∃ d w, evaluateMetadata cmp meta gt = .ok (d, w) ∧
        d.groundwater_information = none ∧
        d.groundwater_information_depth = none ∧
        d.groundwater_information_elevation = none ∧
        d.groundwater_information_date = none) := by
  constructor
  · intro h
    rw [metadataDict_coordinates]
    exact evalCoordinatesCorrect_none meta gt h
  · intro h
    unfold evaluateMetadata
    rcases h with h | h
    · rw [h]
      exact ⟨_, _, rfl, rfl, rfl, rfl, rfl⟩
    · rw [h]
      cases meta.groundwater_information <;>
        exact ⟨_, _, rfl, rfl, rfl, rfl, rfl⟩

/-- C8 witness: both undetermined cases at a concrete empty metadata. -/
theorem claim_C8_undetermined_witness :
    (metadataDict (evaluateMetadata cmpTrivial ⟨none, none⟩ none)).coordinates
      = none ∧
    ∃ d w, evaluateMetadata cmpTrivial ⟨none, none⟩ none = .ok (d, w) ∧
      d.groundwater_information = none ∧
      d.groundwater_information_depth = none ∧
      d.groundwater_information_elevation = none ∧
      d.groundwater_information_date = none :=
  ⟨(claim_C8_undetermined cmpTrivial ⟨none, none⟩ none).1 (Or.inl rfl),
   (claim_C8_undetermined cmpTrivial ⟨none, none⟩ none).2 (Or.inl rfl)⟩

/-- C9: when both sides carry groundwater data and the ground truth has more
than one entry, `evaluate_metadata` returns normally (never raises), emits
the multiple-entries warning, and evaluates all four correctness signals
against the first ground-truth entry only. -/
theorem claim_C9_multiple_groundwater (cmp : GroundwaterCompare)
    (meta : BoreholeMetaData) (gt : Option MetadataGroundTruth)
    (egw g : GroundwaterInformation) (rest : List GroundwaterInformation)
    (h1 : meta.groundwater_information = some egw)
    (h2 : gt.bind MetadataGroundTruth.groundwater = some (g :: rest))
    (h3 : (g :: rest).length > 1) :
    evaluateMetadata cmp meta gt = .ok
      ({ coordinates := evalCoordinatesCorrect meta gt
         groundwater_information := some (cmp.info g egw)
         groundwater_information_depth := some (cmp.depth g egw.depth)
         groundwater_information_elevation :=
           some (cmp.elevation g egw.elevation)
         groundwater_information_date := some (cmp.date g egw.date) },
       ["Multiple groundwater information entries found in the ground truth."])
    := by
  unfold evaluateMetadata
  rw [h1, h2]
  simp only [if_pos h3]

/-- C9 witness: a two-entry ground truth evaluated against concrete
groundwater metadata through the theorem. -/
theorem claim_C9_multiple_groundwater_witness :
    evaluateMetadata cmpTrivial ⟨none, some ⟨some 1, none, none⟩⟩
      (some ⟨none, some [⟨some 1, none, none⟩, ⟨some 2, none, none⟩]⟩) = .ok
      ({ coordinates := evalCoordinatesCorrect
           ⟨none, some ⟨some 1, none, none⟩⟩
           (some ⟨none, some [⟨some 1, none, none⟩, ⟨some 2, none, none⟩]⟩)
         groundwater_information :=
           some (cmpTrivial.info ⟨some 1, none, none⟩ ⟨some 1, none, none⟩)
         groundwater_information_depth :=
           some (cmpTrivial.depth ⟨some 1, none, none⟩ (some 1))
         groundwater_information_elevation :=
           some (cmpTrivial.elevation ⟨some 1, none, none⟩ none)
         groundwater_information_date :=
           some (cmpTrivial.date ⟨some 1, none, none⟩ none) },
       ["Multiple groundwater information entries found in the ground truth."])
    :=
  claim_C9_multiple_groundwater cmpTrivial ⟨none, some ⟨some 1, none, none⟩⟩
    (some ⟨none, some [⟨some 1, none, none⟩, ⟨some 2, none, none⟩]⟩)
    ⟨some 1, none, none⟩ ⟨some 1, none, none⟩ [⟨some 2, none, none⟩]
    rfl rfl (by decide)

/-- C7: evaluation of the index operations at the failing input. A line both
of whose endpoints round to the same integer point — here (0,0)–(0.3,0.3),
both registered at (0,0) — makes `remove` raise `KeyError`: the first
endpoint deletion removes the key from the shared point's set and the second
calls `set.remove` on a set no longer containing it. The claim's
"after remove(k) queries behave as if k was never inserted" therefore fails
on such states, while the unknown-key behaviours hold: `remove` of an
unknown key is a no-op and a query for an unknown key returns empty. -/
theorem claim_C7_remove_keyerror :
    LinesQuadTree.remove
      (LinesQuadTree.empty.add ⟨⟨0, 0⟩, ⟨3/10, 3/10⟩⟩ "a") "a" = .error () ∧
    LinesQuadTree.remove
      (LinesQuadTree.empty.add ⟨⟨0, 0⟩, ⟨1, 1⟩⟩ "a") "unknown" =
      .ok (LinesQuadTree.empty.add ⟨⟨0, 0⟩, ⟨1, 1⟩⟩ "a") ∧
    LinesQuadTree.neighbouring_lines
      (LinesQuadTree.empty.add ⟨⟨0, 0⟩, ⟨1, 1⟩⟩ "a") "unknown" 5 = [] := by
  refine ⟨?_, ?_, ?_⟩
  · norm_num [LinesQuadTree.remove, LinesQuadTree.add, LinesQuadTree.empty,
      qtreeInsert, qtreeDelete, alookup, roundPt, pyRound, Bind.bind,
      Except.bind]
  · norm_num [LinesQuadTree.remove, LinesQuadTree.add, LinesQuadTree.empty,
      qtreeInsert, alookup, roundPt, pyRound,
      show ("a" : String) ≠ "unknown" from by decide]
  · norm_num [LinesQuadTree.neighbouring_lines, LinesQuadTree.add,
      LinesQuadTree.empty, qtreeInsert, alookup, roundPt, pyRound,
      show ("a" : String) ≠ "unknown" from by decide]

/-- When every score within the remaining candidates stays ≤ 0.62 the scan
never moves the boundary. -/
lemma dupScan_all_low (score : α → ℚ) (s : List α)
    (h : ∀ l ∈ s, score l ≤ 62/100) :
    ∀ idx b c, dupScan score s idx b c = b := by
  induction s with
  | nil => intro idx b c; rfl
  | cons x xs ih =>
    intro idx b c
    unfold dupScan
    by_cases hc : c ≥ 3
    · simp [hc]
    · have hx : ¬ score x > 62/100 := not_lt.mpr (h x (by simp))
      simp only [if_neg hc, if_neg hx]
      exact ih (fun l hl => h l (by simp [hl])) _ _ _

/-- C4: `remove_duplicate_layers` sorts the candidates ascending by the top
coordinate of their material-description rectangle, scans them maintaining
the duplicate boundary (moved to each index whose correlation exceeds 0.62,
resetting the run counter) and stops once the counter reaches 3; it returns
the sorted suffix from the boundary onward. With every score ≤ 0.62 all
(sorted) candidates are returned. -/
theorem claim_C4_duplicate_layers (top score : α → ℚ) (layers : List α) :
    removeDuplicateLayers top score layers =
      (layers.mergeSort (fun a b => top a ≤ top b)).drop
        (dupScan score (layers.mergeSort (fun a b => top a ≤ top b)) 0 0 0) ∧
    (layers.mergeSort (fun a b => top a ≤ top b)).Perm layers ∧
    List.Sorted (fun a b => top a ≤ top b)
      (layers.mergeSort (fun a b => top a ≤ top b)) ∧
    (∀ (l : α) (rest : List α) (idx b c : ℕ), 3 ≤ c →
      dupScan score (l :: rest) idx b c = b) ∧
    ((∀ l ∈ layers, score l ≤ 62/100) →
      removeDuplicateLayers top score layers =
        layers.mergeSort (fun a b => top a ≤ top b)) := by
  refine ⟨rfl, List.mergeSort_perm _ _, ?_, ?_, ?_⟩
  · have h := @List.sorted_mergeSort α (fun a b => decide (top a ≤ top b))
      (fun a b c h1 h2 => by
        simp only [decide_eq_true_eq] at h1 h2 ⊢
        exact le_trans h1 h2)
      (fun a b => by
        simp only [Bool.or_eq_true, decide_eq_true_eq]
        exact le_total (top a) (top b))
      layers
    simpa using h
  · intro l rest idx b c hc
    unfold dupScan
    rw [if_pos hc]
  · intro h
    have hs : ∀ l ∈ layers.mergeSort (fun a b => top a ≤ top b),
        score l ≤ 62/100 :=
      fun l hl => h l ((List.mergeSort_perm layers _).subset hl)
    show (layers.mergeSort (fun a b => top a ≤ top b)).drop
      (dupScan score (layers.mergeSort (fun a b => top a ≤ top b)) 0 0 0) = _
    rw [dupScan_all_low _ _ hs 0 0 0, List.drop_zero]

/-- C4 witness: with every correlation score 0 (dissimilar bitmaps) all
candidates are kept, and a scan entered with counter ≥ 3 returns the
boundary untouched. -/
theorem claim_C4_duplicate_layers_witness :
    removeDuplicateLayers (id : ℚ → ℚ) (fun _ => 0) [1, 2, 3] =
      List.mergeSort [1, 2, 3] (fun a b => id a ≤ id b) ∧
    dupScan (fun _ : ℚ => 0) [1] 0 5 3 = 5 :=
  ⟨(claim_C4_duplicate_layers id (fun _ => 0) [1, 2, 3]).2.2.2.2
      (by intro l hl; norm_num),
   (claim_C4_duplicate_layers id (fun _ : ℚ => 0) []).2.2.2.1 1 [] 0 5 3
      (by norm_num)⟩

lemma except_unit_bool_cases (x : Except Unit Bool) :
    x = .error () ∨ x = .ok true ∨ x = .ok false := by
  cases x with
  | error u => cases u; exact Or.inl rfl
  | ok b => cases b
            · exact Or.inr (Or.inr rfl)
            · exact Or.inr (Or.inl rfl)

/-- Unfolding equations for `exactScan`. -/
lemma exactScan_cons_none (c : GroundTruthLayer) (rest : List GroundTruthLayer) :
    exactScan none (c :: rest) = exactScan none rest := rfl

lemma exactScan_cons_error {i : BoundaryInterval} {c : GroundTruthLayer}
    (rest : List GroundTruthLayer) (h : exactStep i c = .error ()) :
    exactScan (some i) (c :: rest) = .error () := by
  show (match exactStep i c with
    | Except.error () => Except.error ()
    | Except.ok true => Except.ok (some c)
    | Except.ok false => exactScan (some i) rest) = _
  rw [h]

lemma exactScan_cons_true {i : BoundaryInterval} {c : GroundTruthLayer}
    (rest : List GroundTruthLayer) (h : exactStep i c = .ok true) :
    exactScan (some i) (c :: rest) = .ok (some c) := by
  show (match exactStep i c with
    | Except.error () => Except.error ()
    | Except.ok true => Except.ok (some c)
    | Except.ok false => exactScan (some i) rest) = _
  rw [h]

lemma exactScan_cons_false {i : BoundaryInterval} {c : GroundTruthLayer}
    (rest : List GroundTruthLayer) (h : exactStep i c = .ok false) :
    exactScan (some i) (c :: rest) = exactScan (some i) rest := by
  show (match exactStep i c with
    | Except.error () => Except.error ()
    | Except.ok true => Except.ok (some c)
    | Except.ok false => exactScan (some i) rest) = _
  rw [h]

/-- The per-candidate step raises exactly when the candidate's ground-truth
start is 0 while both predicted bounds are absent. -/
lemma exactStep_error_iff (i : BoundaryInterval) (g : GroundTruthLayer) :
    exactStep i g = .error () ↔
      (g.depth_interval.start = some 0 ∧ i.start = none ∧ i.ending = none) := by
  obtain ⟨istart, iend⟩ := i
  cases istart with
  | some s => cases iend <;> simp [exactStep, exactStepBoth]
  | none =>
    cases iend with
    | none =>
      by_cases hg0 : g.depth_interval.start = some 0 <;>
        simp [exactStep, exactStepBoth, hg0]
    | some e =>
      by_cases hg0 : g.depth_interval.start = some 0 <;>
        by_cases hv : g.depth_interval.ending = some e.value <;>
          simp [exactStep, exactStepBoth, hg0, hv]

/-- The per-candidate step accepts exactly the spec's exact-match
condition. -/
lemma exactStep_true_iff (i : BoundaryInterval) (g : GroundTruthLayer) :
    exactStep i g = .ok true ↔ IsExactMatch (some i) g := by
  obtain ⟨istart, iend⟩ := i
  cases istart with
  | some s =>
    cases iend with
    | none => simp [exactStep, exactStepBoth, IsExactMatch]
    | some e => simp [exactStep, exactStepBoth, IsExactMatch]
  | none =>
    cases iend with
    | none =>
      by_cases hg0 : g.depth_interval.start = some 0 <;>
        simp [exactStep, exactStepBoth, IsExactMatch, hg0]
    | some e =>
      by_cases hg0 : g.depth_interval.start = some 0 <;>
        by_cases hv : g.depth_interval.ending = some e.value <;>
          simp [exactStep, exactStepBoth, IsExactMatch, hg0, hv]

/-- A scan that found an exact match found it among the candidates. -/
lemma exactScan_mem_isExact (di : Option BoundaryInterval) :
    ∀ (cands : List GroundTruthLayer) (g : GroundTruthLayer),
      exactScan di cands = .ok (some g) → g ∈ cands ∧ IsExactMatch di g := by
  intro cands
  induction cands with
  | nil => intro g h; exact absurd h (by simp [exactScan])
  | cons c rest ih =>
    intro g h
    cases di with
    | none =>
      rw [exactScan_cons_none] at h
      obtain ⟨hm, hx⟩ := ih g h
      exact ⟨List.mem_cons_of_mem c hm, hx⟩
    | some i =>
      rcases except_unit_bool_cases (exactStep i c) with hc | hc | hc
      · rw [exactScan_cons_error rest hc] at h
        exact absurd h (by simp)
      · rw [exactScan_cons_true rest hc] at h
        have : c = g := by simpa using h
        subst this
        exact ⟨List.mem_cons_self c rest, (exactStep_true_iff i c).mp hc⟩
      · rw [exactScan_cons_false rest hc] at h
        obtain ⟨hm, hx⟩ := ih g h
        exact ⟨List.mem_cons_of_mem c hm, hx⟩

/-- A scan that found nothing saw no exact match among the candidates. -/
lemma exactScan_none_noExact (di : Option BoundaryInterval) :
    ∀ (cands : List GroundTruthLayer),
      exactScan di cands = .ok none → ∀ g ∈ cands, ¬ IsExactMatch di g := by
  intro cands
  induction cands with
  | nil => intro _ g hg; exact absurd hg (by simp)
  | cons c rest ih =>
    intro h g hg
    cases di with
    | none => intro hx; exact hx
    | some i =>
      rcases except_unit_bool_cases (exactStep i c) with hc | hc | hc
      · rw [exactScan_cons_error rest hc] at h
        exact absurd h (by simp)
      · rw [exactScan_cons_true rest hc] at h
        exact absurd h (by simp)
      · rw [exactScan_cons_false rest hc] at h
        rcases List.mem_cons.mp hg with rfl | hg2
        · intro hx
          exact absurd ((exactStep_true_iff i g).mpr hx) (by rw [hc]; simp)
        · exact ih h g hg2

/-- Under the totality precondition the scan never raises. -/
lemma exactScan_ok_of_safe (di : Option BoundaryInterval)
    (hsafe : ∀ i, di = some i → ¬(i.start = none ∧ i.ending = none)) :
    ∀ cands, ∃ o, exactScan di cands = .ok o := by
  intro cands
  induction cands with
  | nil => exact ⟨none, rfl⟩
  | cons c rest ih =>
    cases di with
    | none =>
      obtain ⟨o, ho⟩ := ih
      exact ⟨o, by rw [exactScan_cons_none]; exact ho⟩
    | some i =>
      rcases except_unit_bool_cases (exactStep i c) with hc | hc | hc
      · obtain ⟨_, h2, h3⟩ := (exactStep_error_iff i c).mp hc
        exact absurd ⟨h2, h3⟩ (hsafe i rfl)
      · exact ⟨some c, exactScan_cons_true rest hc⟩
      · obtain ⟨o, ho⟩ := ih
        exact ⟨o, by rw [exactScan_cons_false rest hc]; exact ho⟩

/-- With both predicted bounds absent, the scan raises as soon as some
candidate's ground-truth start is 0. -/
lemma exactScan_error_of_zero_start (i : BoundaryInterval)
    (hs : i.start = none) (he : i.ending = none) :
    ∀ cands, (∃ g ∈ cands, g.depth_interval.start = some 0) →
      exactScan (some i) cands = .error () := by
  intro cands
  induction cands with
  | nil => intro h; exact absurd h (by simp)
  | cons c rest ih =>
    intro h
    by_cases hc : c.depth_interval.start = some 0
    · exact exactScan_cons_error rest ((exactStep_error_iff i c).mpr ⟨hc, hs, he⟩)
    · rcases except_unit_bool_cases (exactStep i c) with hx | hx | hx
      · exact exactScan_cons_error rest hx
      · have hix := (exactStep_true_iff i c).mp hx
        unfold IsExactMatch at hix
        rcases hix with ⟨h1, _⟩ | ⟨h1, _⟩
        · exact absurd h1 hc
        · exact absurd hs (by simpa using h1)
      · rw [exactScan_cons_false rest hx]
        apply ih
        obtain ⟨g, hg, hg0⟩ := h
        rcases List.mem_cons.mp hg with rfl | hg2
        · exact absurd hg0 hc
        · exact ⟨g, hg2, hg0⟩


/-- Python `max(xs, key=f)` on a non-empty list: some element attaining the
maximal key. -/
lemma pyMaxBy_spec (f : α → ℚ) (x : α) (xs : List α) :
    ∃ m, pyMaxBy f (x :: xs) = some m ∧ m ∈ x :: xs ∧
      ∀ y ∈ x :: xs, f y ≤ f m := by
  have aux : ∀ (l : List α) (acc : α),
      (l.foldl (fun acc y => if f y > f acc then y else acc) acc = acc ∨
       l.foldl (fun acc y => if f y > f acc then y else acc) acc ∈ l) ∧
      f acc ≤ f (l.foldl (fun acc y => if f y > f acc then y else acc) acc) ∧
      ∀ y ∈ l, f y ≤ f (l.foldl (fun acc y => if f y > f acc then y else acc) acc) := by
    intro l
    induction l with
    | nil => exact fun acc => ⟨Or.inl rfl, le_refl _, by simp⟩
    | cons z zs ih =>
      intro acc
      simp only [List.foldl_cons]
      obtain ⟨hmem, hacc, hall⟩ := ih (if f z > f acc then z else acc)
      refine ⟨?_, ?_, ?_⟩
      · rcases hmem with h | h
        · rw [h]
          by_cases hz : f z > f acc
          · rw [if_pos hz]; exact Or.inr (List.mem_cons_self z zs)
          · rw [if_neg hz]; exact Or.inl rfl
        · exact Or.inr (List.mem_cons_of_mem z h)
      · refine le_trans ?_ hacc
        by_cases hz : f z > f acc
        · rw [if_pos hz]; exact le_of_lt hz
        · rw [if_neg hz]
      · intro y hy
        rcases List.mem_cons.mp hy with rfl | hy'
        · refine le_trans ?_ hacc
          by_cases hz : f y > f acc
          · rw [if_pos hz]
          · rw [if_neg hz]; exact not_lt.mp hz
        · exact hall y hy'
  obtain ⟨hmem, hacc, hall⟩ := aux xs x
  refine ⟨_, rfl, ?_, ?_⟩
  · rcases hmem with h | h
    · rw [h]; exact List.mem_cons_self x xs
    · exact List.mem_cons_of_mem x h
  · intro y hy
    rcases List.mem_cons.mp hy with rfl | hy'
    · exact hacc
    · exact hall y hy'

/-- One `_find_matching_layer` call, under the totality precondition,
returns normally and satisfies the spec's step description; the updated pool
is a sub-permutation of the old one and a missing match leaves the interval
flag unset. -/
lemma findMatchingLayer_ok_spec (pt : String → String)
    (ratio : String → String → ℚ) (layer : LayerPrediction)
    (pool : List GroundTruthLayer) (hsafe : SafeLayer layer) :
    ∃ r, findMatchingLayer pt ratio layer pool = .ok r ∧
      LayerMatchSpec pt ratio layer pool r ∧ List.Subperm r.2.2 pool ∧
      (r.1 = none → r.2.1 = none) := by
  have hdef : findMatchingLayer pt ratio layer pool =
      (if (candidatesOf pt ratio layer pool).isEmpty then
        .ok (none, none, pool)
      else
        match exactScan layer.depth_interval
            (candidatesOf pt ratio layer pool) with
        | .error () => .error ()
        | .ok (some g) => .ok (some g, some true, pool.erase g)
        | .ok none =>
          match pyMaxBy (fun g =>
              ratio (pt layer.material_description_text)
                g.material_description) (candidatesOf pt ratio layer pool) with
          | some m => .ok (some m, some false, pool.erase m)
          | none => .ok (none, none, pool)) := rfl
  by_cases hemp : (candidatesOf pt ratio layer pool).isEmpty
  · refine ⟨(none, none, pool), ?_, ?_, List.Subperm.refl pool, fun _ => rfl⟩
    · rw [hdef, if_pos hemp]
    · unfold LayerMatchSpec
      rw [if_pos hemp]
  · obtain ⟨o, ho⟩ := exactScan_ok_of_safe layer.depth_interval
      (fun i hi hc => hsafe i hi hc.1 hc.2) (candidatesOf pt ratio layer pool)
    cases o with
    | some g =>
      obtain ⟨hmem, hexact⟩ :=
        exactScan_mem_isExact layer.depth_interval _ g ho
      have hex : ∃ g' ∈ candidatesOf pt ratio layer pool,
          IsExactMatch layer.depth_interval g' := ⟨g, hmem, hexact⟩
      refine ⟨(some g, some true, pool.erase g), ?_, ?_,
        (pool.erase_sublist g).subperm, by simp⟩
      · rw [hdef, if_neg hemp, ho]
      · unfold LayerMatchSpec
        rw [if_neg hemp, if_pos hex]
        exact ⟨g, hmem, hexact, rfl⟩
    | none =>
      have hnex : ¬ ∃ g ∈ candidatesOf pt ratio layer pool,
          IsExactMatch layer.depth_interval g := by
        rintro ⟨g, hg, hx⟩
        exact exactScan_none_noExact layer.depth_interval _ ho g hg hx
      obtain ⟨x, xs, hxx⟩ : ∃ x xs,
          candidatesOf pt ratio layer pool = x :: xs := by
        cases hc : candidatesOf pt ratio layer pool with
        | nil => exact absurd (by rw [hc]; rfl) hemp
        | cons x xs => exact ⟨x, xs, rfl⟩
      obtain ⟨m, hm, hmem, hmax⟩ := pyMaxBy_spec
        (fun g => ratio (pt layer.material_description_text)
          g.material_description) x xs
      refine ⟨(some m, some false, pool.erase m), ?_, ?_,
        (pool.erase_sublist m).subperm, by simp⟩
      · rw [hdef, if_neg hemp, ho, hxx, hm]
      · unfold LayerMatchSpec
        rw [if_neg hemp, if_neg hnex, hxx]
        exact ⟨m, hmem, hmax, rfl⟩

lemma evaluateLayers_cons (pt : String → String)
    (ratio : String → String → ℚ) (l : LayerPrediction)
    (ls : List LayerPrediction) (pool : List GroundTruthLayer) :
    evaluateLayers pt ratio (l :: ls) pool =
      match findMatchingLayer pt ratio l pool with
      | .error () => .error ()
      | .ok (m, d, pool2) =>
        match evaluateLayers pt ratio ls pool2 with
        | .error () => .error ()
        | .ok (fs, fp) =>
          if m.isSome then .ok ((true, d) :: fs, fp)
          else .ok ((false, none) :: fs, fp) := rfl

/-- The whole `evaluate_layers` pass refines the spec's per-layer greedy
description, with the final pool a sub-permutation of the ground truth. -/
lemma evaluateLayers_spec (pt : String → String)
    (ratio : String → String → ℚ) :
    ∀ (layers : List LayerPrediction) (pool : List GroundTruthLayer),
      (∀ l ∈ layers, SafeLayer l) →
      ∃ out, evaluateLayers pt ratio layers pool = .ok out ∧
        EvalLayersSpec pt ratio layers pool out ∧ List.Subperm out.2 pool ∧
        out.1.length = layers.length := by
  intro layers
  induction layers with
  | nil =>
    intro pool _
    exact ⟨([], pool), rfl, .nil pool, List.Subperm.refl pool, rfl⟩
  | cons l ls ih =>
    intro pool hsafe
    obtain ⟨⟨m, d, pool2⟩, hfind, hspec, hsub, hflag⟩ :=
      findMatchingLayer_ok_spec pt ratio l pool (hsafe l (by simp))
    obtain ⟨⟨fs, fp⟩, heval, hevalspec, hsub2, hlen⟩ :=
      ih pool2 (fun x hx => hsafe x (List.mem_cons_of_mem l hx))
    refine ⟨((m.isSome, d) :: fs, fp), ?_, ?_, hsub2.trans hsub,
      by simpa using hlen⟩
    · simp only [evaluateLayers_cons, hfind, heval]
      cases m with
      | none =>
        have hd : d = none := hflag rfl
        subst hd
        rfl
      | some g => rfl
    · exact .cons l ls pool pool2 fp m d fs hspec hevalspec

/-- C1: under the totality precondition (every present predicted depth
interval with an absent start has its end present), `evaluate_layers`
returns normally and follows the claim's greedy procedure exactly: per
predicted layer the candidates are the still-unmatched ground-truth entries
with similarity ratio > 0.9; no candidate → flags (false, None); an exact
depth match → that candidate leaves the pool and flags (true, true);
otherwise the highest-ratio candidate leaves the pool and flags
(true, false). The final pool is a sub-permutation of the ground truth —
each ground-truth entry is consumed by at most one predicted layer. -/
theorem claim_C1_evaluate_layers (pt : String → String)
    (ratio : String → String → ℚ) (layers : List LayerPrediction)
    (gt : List GroundTruthLayer) (hsafe : ∀ l ∈ layers, SafeLayer l) :
    ∃ out, evaluateLayers pt ratio layers gt = .ok out ∧
      EvalLayersSpec pt ratio layers gt out ∧ List.Subperm out.2 gt ∧
      out.1.length = layers.length :=
  evaluateLayers_spec pt ratio layers gt hsafe

/-- C1 witness: a one-layer evaluation at a concrete exact-match input. -/
theorem claim_C1_evaluate_layers_witness :
    ∃ out, evaluateLayers id exRatio [exLayer] [exGTLayer] = .ok out ∧
      EvalLayersSpec id exRatio [exLayer] [exGTLayer] out ∧
      List.Subperm out.2 [exGTLayer] ∧
      out.1.length = [exLayer].length :=
  claim_C1_evaluate_layers id exRatio [exLayer] [exGTLayer]
    (by
      intro l hl i hdi hstart
      simp only [List.mem_singleton] at hl
      subst hl
      simp only [exLayer, LayerPrediction.depth_interval] at hdi
      cases hdi
      simp)

/-- C10: with a predicted depth interval present but its end entry absent,
as soon as some similarity candidate has ground-truth start 0 while the
predicted start is also absent, `_find_matching_layer` — and hence
`evaluate_layers` — raises (the `AttributeError` on
`layer.depth_interval.end.value`); and the procedure is total under the
precondition that every present depth interval with an absent start has its
end present. -/
theorem claim_C10_absent_end_crash :
    (∀ (pt : String → String) (ratio : String → String → ℚ)
        (layer : LayerPrediction) (pool : List GroundTruthLayer)
        (i : BoundaryInterval),
      layer.depth_interval = some i → i.start = none → i.ending = none →
      (∃ g ∈ pool, ratio (pt layer.material_description_text)
          g.material_description > 9/10 ∧
        g.depth_interval.start = some 0) →
      findMatchingLayer pt ratio layer pool = .error () ∧
      evaluateLayers pt ratio [layer] pool = .error ()) ∧
    (∀ (pt : String → String) (ratio : String → String → ℚ)
        (layer : LayerPrediction) (pool : List GroundTruthLayer),
      SafeLayer layer →
      ∃ r, findMatchingLayer pt ratio layer pool = .ok r) := by
  constructor
  · intro pt ratio layer pool i hdi hs he hex
    obtain ⟨g, hg, hr, h0⟩ := hex
    have hgf : g ∈ pool.filter (fun g =>
        ratio (pt layer.material_description_text) g.material_description >
          9/10) := List.mem_filter.mpr ⟨hg, by simpa using hr⟩
    have hfind : findMatchingLayer pt ratio layer pool = .error () := by
      unfold findMatchingLayer
      have hemp : ¬ (pool.filter (fun g =>
          ratio (pt layer.material_description_text) g.material_description >
            9/10)).isEmpty := by
        intro hcontra
        rw [List.isEmpty_iff] at hcontra
        rw [hcontra] at hgf
        exact absurd hgf (by simp)
      rw [if_neg hemp, hdi,
        exactScan_error_of_zero_start i hs he _ ⟨g, hgf, h0⟩]
    refine ⟨hfind, ?_⟩
    unfold evaluateLayers
    rw [hfind]
  · intro pt ratio layer pool hsafe
    obtain ⟨r, hr, _⟩ := findMatchingLayer_ok_spec pt ratio layer pool hsafe
    exact ⟨r, hr⟩

/-- C10 witness: the crash at a concrete input (predicted interval with both
bounds absent, candidate with ground-truth start 0 and matching text) and
totality at a concrete safe layer. -/
theorem claim_C10_absent_end_crash_witness :
    (findMatchingLayer id (fun a b => if a = b then 1 else 0)
        ⟨"x", some ⟨none, none⟩⟩ [⟨"x", ⟨some 0, some 2⟩⟩] = .error () ∧
      evaluateLayers id (fun a b => if a = b then 1 else 0)
        [⟨"x", some ⟨none, none⟩⟩] [⟨"x", ⟨some 0, some 2⟩⟩] = .error ()) ∧
    ∃ r, findMatchingLayer id (fun a b => if a = b then 1 else 0)
        ⟨"y", none⟩ [⟨"x", ⟨some 0, some 2⟩⟩] = .ok r :=
  ⟨claim_C10_absent_end_crash.1 id (fun a b => if a = b then 1 else 0)
      ⟨"x", some ⟨none, none⟩⟩ [⟨"x", ⟨some 0, some 2⟩⟩] ⟨none, none⟩
      rfl rfl rfl
      ⟨⟨"x", ⟨some 0, some 2⟩⟩, by simp, by norm_num, rfl⟩,
   claim_C10_absent_end_crash.2 id (fun a b => if a = b then 1 else 0)
      ⟨"y", none⟩ [⟨"x", ⟨some 0, some 2⟩⟩]
      (by intro i hdi; exact absurd hdi (by simp))⟩

lemma alookup_mem [DecidableEq κ] {k : κ} {b : β} :
    ∀ {m : List (κ × β)}, alookup k m = some b → (k, b) ∈ m := by
  intro m
  induction m with
  | nil => intro h; exact absurd h (by simp [alookup])
  | cons e rest ih =>
    intro h
    obtain ⟨k1, b1⟩ := e
    unfold alookup at h
    by_cases he : k1 = k
    · simp only [he, if_pos rfl] at h
      injection h with h2
      subst he
      subst h2
      exact List.mem_cons_self _ _
    · rw [if_neg (by simpa using he)] at h
      exact List.mem_cons_of_mem _ (ih h)

/-- The membership of `neighbouring_lines`, before well-formedness is taken
into account: exactly the non-query live keys registered at some point
inside the expanded bounding box. -/
lemma neighbouring_lines_mem_iff (t : LinesQuadTree) (key : String)
    (line : Line) (tol : ℚ) (hk : alookup key t.hashmap = some line)
    (k2 : String) (l2 : Line) :
    (k2, l2) ∈ t.neighbouring_lines key tol ↔
      (k2 ≠ key ∧ alookup k2 t.hashmap = some l2 ∧
        ∃ e ∈ t.qtree, InExpandedBB line tol e.1 ∧ k2 ∈ e.2) := by
  have hdef : t.neighbouring_lines key tol =
      (((t.qtree.filter (fun e => InExpandedBB line tol e.1)).flatMap
        Prod.snd).dedup).filterMap (fun k =>
        if k ≠ key then (alookup k t.hashmap).map (fun l2 => (k, l2))
        else none) := by
    unfold LinesQuadTree.neighbouring_lines
    rw [hk]
  rw [hdef]
  simp only [List.mem_filterMap, List.mem_dedup, List.mem_flatMap,
    List.mem_filter, decide_eq_true_eq]
  constructor
  · rintro ⟨a, ⟨e, ⟨he, hbb⟩, hae⟩, hf⟩
    by_cases hak : a ≠ key
    · rw [if_pos hak, Option.map_eq_some'] at hf
      obtain ⟨la, hla, heq⟩ := hf
      obtain ⟨rfl, rfl⟩ : a = k2 ∧ la = l2 := by
        simpa [Prod.ext_iff] using heq
      exact ⟨hak, hla, e, he, hbb, hae⟩
    · rw [if_neg hak] at hf
      exact absurd hf (by simp)
  · rintro ⟨hne, hl2, e, he, hbb, hk2e⟩
    refine ⟨k2, ⟨e, ⟨he, hbb⟩, hk2e⟩, ?_⟩
    rw [if_pos hne, hl2]
    rfl

/-- C5 counterexample: in the concrete two-line index, querying line "a"
(= (0,0)–(10,0)) with tolerance 0 returns line "b", whose endpoint
(10.4, 0) was registered at its rounded coordinates (10, 0) inside the box —
yet no actual endpoint of "b" lies inside the expanded bounding box, so the
claim's unrounded-endpoint characterization is false. -/
theorem claim_C5_counterexample :
    ("b", exM) ∈ exT.neighbouring_lines "a" 0 ∧
    ¬ HasEndpointInExpandedBB exL 0 exM := by
  constructor
  · have hT : exT = ⟨[((0, 0), ["a"]), ((10, 0), ["a", "b"]),
        ((50, 50), ["b"])], [("a", exL), ("b", exM)]⟩ := by
      norm_num [exT, exL, exM, LinesQuadTree.add, LinesQuadTree.empty,
        qtreeInsert, alookup, roundPt, pyRound, Prod.mk.injEq,
        -Prod.mk_zero_zero, show ("b" : String) ≠ "a" from by decide]
    rw [hT]
    norm_num [LinesQuadTree.neighbouring_lines, alookup, exL, exM,
      InExpandedBB, List.dedup, Prod.mk.injEq,
      show ("a" : String) ≠ "b" from by decide,
      show ("b" : String) ≠ "a" from by decide]
  · norm_num [HasEndpointInExpandedBB, exL, exM]

/-- C5 (amended): in a well-formed index, `neighbouring_lines` never returns
the queried key, and returns exactly those other live keys one of whose
endpoints was registered — at its rounded integer coordinates — inside the
bounding box of the queried line's two (unrounded) endpoints expanded by the
tolerance on all sides. The claim's statement in terms of the unrounded
endpoints fails because endpoints are rounded to the nearest integer at
insertion (see the counterexample). -/
theorem claim_C5_neighbouring_lines (t : LinesQuadTree) (key : String)
    (line : Line) (tol : ℚ) (hwf : LQTWF t)
    (hk : alookup key t.hashmap = some line) :
    (∀ l2, (key, l2) ∉ t.neighbouring_lines key tol) ∧
    (∀ k2 l2, (k2, l2) ∈ t.neighbouring_lines key tol ↔
      (k2 ≠ key ∧ alookup k2 t.hashmap = some l2 ∧
        HasRoundedEndpointInExpandedBB line tol l2)) := by
  obtain ⟨hnkeys, hnpts, hndata, hreg1, hreg2, hback⟩ := hwf
  have hmem := neighbouring_lines_mem_iff t key line tol hk
  constructor
  · intro l2 hc
    exact ((hmem key l2).mp hc).1 rfl
  · intro k2 l2
    rw [hmem k2 l2]
    unfold HasRoundedEndpointInExpandedBB
    constructor
    · rintro ⟨hne, hl2, e, he, hbb, hk2⟩
      refine ⟨hne, hl2, ?_⟩
      rcases hback e he k2 hk2 (k2, l2) (alookup_mem hl2) rfl with h | h
      · exact Or.inl (h ▸ hbb)
      · exact Or.inr (h ▸ hbb)
    · rintro ⟨hne, hl2, hbb | hbb⟩
      · obtain ⟨e, he, he1, hk2⟩ := hreg1 (k2, l2) (alookup_mem hl2)
        exact ⟨hne, hl2, e, he, by rw [he1]; exact hbb, hk2⟩
      · obtain ⟨e, he, he1, hk2⟩ := hreg2 (k2, l2) (alookup_mem hl2)
        exact ⟨hne, hl2, e, he, by rw [he1]; exact hbb, hk2⟩

/-- C5 witness: the amended characterization at a concrete well-formed
two-line index. -/
theorem claim_C5_neighbouring_lines_witness :
    (∀ l2, ("a", l2) ∉ exW.neighbouring_lines "a" 5) ∧
    (∀ k2 l2, (k2, l2) ∈ exW.neighbouring_lines "a" 5 ↔
      (k2 ≠ "a" ∧ alookup k2 exW.hashmap = some l2 ∧
        HasRoundedEndpointInExpandedBB ⟨⟨0, 0⟩, ⟨10, 0⟩⟩ 5 l2)) :=
  claim_C5_neighbouring_lines exW "a" ⟨⟨0, 0⟩, ⟨10, 0⟩⟩ 5
    (by
      have hW : exW = ⟨[((0, 0), ["a"]), ((10, 0), ["a"]), ((3, 4), ["b"]),
          ((20, 20), ["b"])],
          [("a", ⟨⟨0, 0⟩, ⟨10, 0⟩⟩), ("b", ⟨⟨3, 4⟩, ⟨20, 20⟩⟩)]⟩ := by
        norm_num [exW, LinesQuadTree.add, LinesQuadTree.empty, qtreeInsert,
          alookup, roundPt, pyRound, Prod.mk.injEq,
          -Prod.mk_zero_zero, show ("b" : String) ≠ "a" from by decide]
      rw [hW]
      refine ⟨?_, ?_, ?_, ?_, ?_, ?_⟩
      · norm_num [show ("a" : String) ≠ "b" from by decide]
      · norm_num [List.nodup_cons, Prod.mk.injEq, -Prod.mk_zero_zero]
      · intro e he
        fin_cases he <;> norm_num
      · intro kl hkl
        fin_cases hkl
        · exact ⟨((0, 0), ["a"]), by norm_num,
            by norm_num [roundPt, pyRound, Prod.mk.injEq, -Prod.mk_zero_zero],
            by norm_num⟩
        · exact ⟨((3, 4), ["b"]), by norm_num,
            by norm_num [roundPt, pyRound, Prod.mk.injEq, -Prod.mk_zero_zero],
            by norm_num⟩
      · intro kl hkl
        fin_cases hkl
        · exact ⟨((10, 0), ["a"]), by norm_num,
            by norm_num [roundPt, pyRound, Prod.mk.injEq, -Prod.mk_zero_zero],
            by norm_num⟩
        · exact ⟨((20, 20), ["b"]), by norm_num,
            by norm_num [roundPt, pyRound, Prod.mk.injEq, -Prod.mk_zero_zero],
            by norm_num⟩
      · intro e he k hk kl hkl heq
        fin_cases he <;> fin_cases hkl <;>
          simp_all [roundPt, pyRound, Prod.mk.injEq, -Prod.mk_zero_zero])
    (by
      norm_num [exW, LinesQuadTree.add, LinesQuadTree.empty, qtreeInsert,
        alookup, roundPt, pyRound, Prod.mk.injEq,
        -Prod.mk_zero_zero, show ("b" : String) ≠ "a" from by decide])

end Boreholes
